import Mathlib

/-!
Verification development for the QR Code Suite batch-processing and
result-aggregation workflow (src/App.tsx).

The external collaborators (QR codec, archive library, URL parser, camera
device) are modelled as oracle parameters: the QR encode call is a function
`String → Option String` (`none` models a rejected/failed encode), the file
decode call is `UploadFile → Option String` (`none` models "no symbol
found"), and the URL parser is `String → Option URLParts`.  The orchestration
logic itself is translated directly from the source.  JavaScript string
primitives (trim, split, slice, replace) are modelled character-wise over
`List Char`.
-/

set_option autoImplicit false
set_option linter.unusedVariables false

namespace QRSuite

/-- EncodeResult of the Batch Encode Orchestrator: interface `GeneratedQR`
in src/App.tsx (`{ id, url, dataUrl }`). -/
structure GeneratedQR where
  id : String
  url : String
  dataUrl : String
deriving DecidableEq

/-- DecodeResult of the Multi-Source Decode Orchestrator: interface
`ScanResult` in src/App.tsx (`{ fileName, decodedText }`). -/
structure ScanResult where
  fileName : String
  decodedText : String
deriving DecidableEq

/-- Model of `String.prototype.trim`: drop leading and trailing whitespace. -/
def trimJS (s : String) : String :=
  String.mk (((s.data.dropWhile Char.isWhitespace).reverse.dropWhile Char.isWhitespace).reverse)

/-- Line preprocessing of `generateBulk`:
`urls.split(newline).map(u => u.trim()).filter(Boolean)` — split the raw
textarea text on newlines, trim each line, drop empty lines (the only falsy
string is the empty string). -/
def parseLines (raw : String) : List String :=
  (((raw.data.splitOn '\n').map (fun l => trimJS (String.mk l)))).filter (fun u => u ≠ "")

/-- The sequential encode loop of `generateBulk` (src/App.tsx lines 112-122).
`enc` is the external codec call `QRCode.toDataURL` (with the fixed options),
returning `none` when the codec throws.  `rand` is the stream of values
produced by successive `Math.random()` calls; the draw counter `k` advances
only when a draw actually happens, i.e. on each successful encode, exactly as
in the source where the `id` is built only inside the `try` after the `await`
succeeds.  A failed item is caught (`catch`), logged and skipped. -/
def generateBulkLoop (enc : String → Option String) (rand : Nat → String) :
    List String → Nat → List GeneratedQR
  | [], _ => []
  | url :: rest, k =>
    match enc url with
    | some dataUrl => ⟨"qr-" ++ rand k, url, dataUrl⟩ :: generateBulkLoop enc rand rest (k + 1)
    | none => generateBulkLoop enc rand rest k

/-- Outcome of one run of `generateBulk`: `results = none` models the early
`return` (the displayed list is not replaced); `encodeCalls` is the ordered
list of arguments passed to the codec. -/
structure BulkRunOutcome where
  results : Option (List GeneratedQR)
  encodeCalls : List String
deriving DecidableEq

/-- Whole-function model of `generateBulk` (src/App.tsx lines 107-125):
parse the textarea, return early when no line remains
(`if (urlList.length === 0) return`), otherwise run the encode loop; the
codec is awaited exactly once per line. -/
def generateBulkRun (enc : String → Option String) (rand : Nat → String)
    (raw : String) : BulkRunOutcome :=
  let urlList := parseLines raw
  if urlList.length = 0 then ⟨none, []⟩
  else ⟨some (generateBulkLoop enc rand urlList 0), urlList⟩

/-- Successful lines of a batch: the lines the codec accepts. -/
def encodeOk (enc : String → Option String) (lines : List String) : List String :=
  lines.filter (fun u => (enc u).isSome)

theorem generateBulkLoop_map_url (enc : String → Option String) (rand : Nat → String) :
    ∀ (lines : List String) (k : Nat),
      (generateBulkLoop enc rand lines k).map GeneratedQR.url = encodeOk enc lines := by
  intro lines
  induction lines with
  | nil => intro k; rfl
  | cons u rest ih =>
    intro k
    cases h : enc u with
    | some d =>
      simp only [generateBulkLoop, h, encodeOk, List.filter_cons, Option.isSome_some,
        if_pos, List.map_cons]
      exact congrArg (List.cons u) (ih (k + 1))
    | none =>
      simp only [generateBulkLoop, h, encodeOk, List.filter_cons, Option.isSome_none]
      simpa [encodeOk] using ih k

theorem generateBulkLoop_filter (enc : String → Option String) (rand : Nat → String) :
    ∀ (lines : List String) (k : Nat),
      generateBulkLoop enc rand lines k = generateBulkLoop enc rand (encodeOk enc lines) k := by
  intro lines
  induction lines with
  | nil => intro k; rfl
  | cons u rest ih =>
    intro k
    cases h : enc u with
    | some d =>
      simp only [encodeOk, List.filter_cons, h, Option.isSome_some, if_pos]
      simp only [generateBulkLoop, h]
      exact congrArg _ (ih (k + 1))
    | none =>
      simp only [encodeOk, List.filter_cons, h, Option.isSome_none]
      simp only [generateBulkLoop, h]
      simpa [encodeOk] using ih k

/-- C1: for a batch of trimmed non-empty lines of which exactly K encode
successfully, the Batch Encode Orchestrator returns exactly K results, every
result's source text is one of the input lines, the successes keep their
relative order (the list of source texts is a sublist of the input), and the
run never fails as a whole because of an individual failure: the result is
exactly the one obtained with the failing items absent. -/
theorem generateBulk_success_spec (enc : String → Option String) (rand : Nat → String)
    (lines : List String)
    (htrim : ∀ u ∈ lines, trimJS u = u) (hne : ∀ u ∈ lines, u ≠ "") :
    (generateBulkLoop enc rand lines 0).length = (encodeOk enc lines).length
    ∧ (∀ q ∈ generateBulkLoop enc rand lines 0, q.url ∈ lines)
    ∧ List.Sublist ((generateBulkLoop enc rand lines 0).map GeneratedQR.url) lines
    ∧ generateBulkLoop enc rand lines 0 = generateBulkLoop enc rand (encodeOk enc lines) 0 := by
  have hmap := generateBulkLoop_map_url enc rand lines 0
  refine ⟨?_, ?_, ?_, generateBulkLoop_filter enc rand lines 0⟩
  · have := congrArg List.length hmap
    simpa using this
  · intro q hq
    have : q.url ∈ (generateBulkLoop enc rand lines 0).map GeneratedQR.url :=
      List.mem_map_of_mem _ hq
    rw [hmap] at this
    exact List.mem_of_mem_filter this
  · rw [hmap]
    exact List.filter_sublist lines

/-- Witness for `generateBulk_success_spec` at a concrete batch of two lines
of which the codec accepts one. -/
theorem generateBulk_success_spec_witness :
    (generateBulkLoop (fun u => if u = "a" then some "img" else none) (fun _ => "r")
        ["a", "b"] 0).length
      = (encodeOk (fun u => if u = "a" then some "img" else none) ["a", "b"]).length :=
  (generateBulk_success_spec (fun u => if u = "a" then some "img" else none) (fun _ => "r")
    ["a", "b"] (by decide) (by decide)).1

/-- C10: because the encode loop is sequential, the result order matches the
literal input order exactly: the list of source texts of the results equals
the list of input lines that encode successfully, in input order. -/
theorem generateBulk_literal_order (enc : String → Option String) (rand : Nat → String)
    (lines : List String) :
    (generateBulkLoop enc rand lines 0).map GeneratedQR.url = encodeOk enc lines :=
  generateBulkLoop_map_url enc rand lines 0

/-- An uploaded file: a name plus an abstract payload identifier, so that the
decode oracle can distinguish files that share a name. -/
structure UploadFile where
  name : String
  payload : Nat
deriving DecidableEq

/-- User-facing notices raised by the bulk file decode path: the max-10 alert
and the aggregate nothing-found alert. -/
inductive ScanNotice where
  | tooManyFiles
  | nothingFound
deriving DecidableEq

/-- Outcome of one run of `handleFileChange`: `results = none` models an
early `return` (the displayed list is not replaced); `decodeCalls` is the
ordered list of files passed to `scanFile`; `notice` is the alert raised, if
any. -/
structure FileChangeOutcome where
  results : Option (List ScanResult)
  decodeCalls : List UploadFile
  notice : Option ScanNotice
deriving DecidableEq

/-- Model of `handleFileChange` (src/App.tsx lines 240-275).  `dec` is the
external `scanFile` call, `none` when no symbol is found (the per-file
`catch` maps that to `null`).  Empty selection: early return.  More than 10
files: alert and early return, before any decode is attempted.  Otherwise
every file is scanned (the promises are launched together and `Promise.all`
preserves input order), failures are filtered out, and an aggregate
nothing-found alert is raised when no file decoded. -/
def handleFileChange (dec : UploadFile → Option String) (files : List UploadFile) :
    FileChangeOutcome :=
  if files.length = 0 then ⟨none, [], none⟩
  else if files.length > 10 then ⟨none, [], some ScanNotice.tooManyFiles⟩
  else
    let successes := files.filterMap (fun f => (dec f).map (fun t => ⟨f.name, t⟩))
    ⟨some successes, files, if successes.length = 0 then some ScanNotice.nothingFound else none⟩

/-- C2: a selection of more than 10 files is rejected whole: the
tooManyFiles notice is raised, no decode is attempted, and the displayed
results are not touched. -/
theorem handleFileChange_too_many (dec : UploadFile → Option String)
    (files : List UploadFile) (h : files.length > 10) :
    handleFileChange dec files = ⟨none, [], some ScanNotice.tooManyFiles⟩ := by
  have h0 : ¬ files.length = 0 := by omega
  simp [handleFileChange, h0, h]

/-- Witness for `handleFileChange_too_many` at a concrete selection of 11
files. -/
theorem handleFileChange_too_many_witness :
    handleFileChange (fun f => some f.name) ((List.range 11).map (fun n => ⟨"f", n⟩))
      = ⟨none, [], some ScanNotice.tooManyFiles⟩ :=
  handleFileChange_too_many (fun f => some f.name) ((List.range 11).map (fun n => ⟨"f", n⟩))
    (by decide)

/-- C6: on empty input both orchestrators are immediate no-ops: a textarea
whose parsed line list is empty makes `generateBulk` return with no result
update and zero codec calls, and an empty file selection makes
`handleFileChange` return with no result update, zero decode calls and no
notice. -/
theorem empty_input_noop (enc : String → Option String) (rand : Nat → String)
    (dec : UploadFile → Option String) (raw : String)
    (h : parseLines raw = []) :
    generateBulkRun enc rand raw = ⟨none, []⟩
    ∧ handleFileChange dec [] = ⟨none, [], none⟩ := by
  constructor
  · simp [generateBulkRun, h]
  · rfl

/-- Witness for `empty_input_noop` at the empty textarea text (which parses
to no lines) and the always-failing decoder. -/
theorem empty_input_noop_witness :
    generateBulkRun (fun _ => none) (fun _ => "") "" = ⟨none, []⟩
    ∧ handleFileChange (fun _ => none) [] = ⟨none, [], none⟩ :=
  empty_input_noop (fun _ => none) (fun _ => "") (fun _ => none) "" (by decide)

/-- The html5-qrcode scanner object held in `scannerRef.current`, reduced to
the one field the orchestrator inspects: its `isScanning` flag. -/
structure ScannerDevice where
  isScanning : Bool
deriving DecidableEq

/-- The scanner view state: the React `isScanning` flag, the scanner ref
(`none` models `scannerRef.current = null`), and the displayed scan
results. -/
structure ScanState where
  isScanning : Bool
  scannerRef : Option ScannerDevice
  scanResults : List ScanResult
deriving DecidableEq

/-- Model of `stopScan` (src/App.tsx lines 216-226).  If a scanner object is
held and its device reports scanning, the external `stop()` is invoked:
`stopOk` tells whether that call resolves.  On resolution the React flag is
cleared and the ref nulled; on rejection the flag is still forced to false
but the ref is left in place.  Otherwise nothing happens. -/
def stopScan (stopOk : Bool) (s : ScanState) : ScanState :=
  match s.scannerRef with
  | some d =>
    if d.isScanning then
      if stopOk then ⟨false, none, s.scanResults⟩
      else ⟨false, s.scannerRef, s.scanResults⟩
    else s
  | none => s

/-- Model of the success callback passed to `html5QrCode.start` in
`startScan` (src/App.tsx lines 198-201): the result list is replaced by the
single camera result, then `stopScan` runs. -/
def onScanSuccess (stopOk : Bool) (decodedText : String) (s : ScanState) : ScanState :=
  stopScan stopOk ⟨s.isScanning, s.scannerRef, [⟨"Camera Scan", decodedText⟩]⟩

/-- C5: while capturing, the first decoded frame produces exactly one
DecodeResult labelled with the fixed sentinel "Camera Scan", and the
orchestrator immediately stops the session: it never remains in the
capturing state afterwards, and the device ref is released whenever the
external stop call resolves. -/
theorem camera_first_success (stopOk : Bool) (text : String) (s : ScanState)
    (d : ScannerDevice) (href : s.scannerRef = some d) (hd : d.isScanning = true) :
    (onScanSuccess stopOk text s).scanResults = [⟨"Camera Scan", text⟩]
    ∧ (onScanSuccess stopOk text s).isScanning = false
    ∧ (stopOk = true → (onScanSuccess stopOk text s).scannerRef = none) := by
  cases stopOk <;> simp [onScanSuccess, stopScan, href, hd]

/-- Witness for `camera_first_success` at a concrete capturing state. -/
theorem camera_first_success_witness :
    (onScanSuccess true "hello" ⟨true, some ⟨true⟩, []⟩).scanResults = [⟨"Camera Scan", "hello"⟩]
    ∧ (onScanSuccess true "hello" ⟨true, some ⟨true⟩, []⟩).isScanning = false
    ∧ (true = true → (onScanSuccess true "hello" ⟨true, some ⟨true⟩, []⟩).scannerRef = none) :=
  camera_first_success true "hello" ⟨true, some ⟨true⟩, []⟩ ⟨true⟩ rfl rfl

/-- C9: stopping when no capture session is active — no scanner object is
held, or the held device is not scanning — changes nothing and raises no
error. -/
theorem stopScan_inactive_noop (stopOk : Bool) (s : ScanState)
    (h : s.scannerRef = none ∨ ∃ d, s.scannerRef = some d ∧ d.isScanning = false) :
    stopScan stopOk s = s := by
  rcases h with h | ⟨d, hd, hscan⟩
  · simp [stopScan, h]
  · simp [stopScan, hd, hscan]

/-- Witness for `stopScan_inactive_noop` at the idle state with no scanner
object. -/
theorem stopScan_inactive_noop_witness :
    stopScan true ⟨false, none, []⟩ = ⟨false, none, []⟩ :=
  stopScan_inactive_noop true ⟨false, none, []⟩ (Or.inl rfl)

/-- Character replacement of the regex in `downloadZip`
(`url.replace` of every character not matching `[a-z0-9]` case-insensitively
with an underscore): an ASCII letter or digit is kept, every other character
becomes an underscore. -/
def sanitizeChar (c : Char) : Char :=
  if ('a' ≤ c ∧ c ≤ 'z') ∨ ('A' ≤ c ∧ c ≤ 'Z') ∨ ('0' ≤ c ∧ c ≤ '9') then c else '_'

/-- File-name derivation of `downloadZip` (src/App.tsx line 130): sanitize
the source text character-wise, keep the first 50 characters (`slice(0, 50)`
modelled over characters), and when the result is the empty string (the only
falsy string) fall back to qrcode_ followed by the 1-based index. -/
def deriveFileName (url : String) (index : Nat) : String :=
  let t := String.mk ((url.data.map sanitizeChar).take 50)
  if t = "" then "qrcode_" ++ toString (index + 1) else t

/-- The payload handed to `zip.file`: the part of the data URL after the
first comma (`dataUrl.split(comma)[1]`), empty when absent. -/
def base64Payload (dataUrl : String) : String :=
  String.mk ((dataUrl.data.splitOn ',').getD 1 [])

/-- State threaded through the `qrs.forEach` loop of `downloadZip`: the zip
entries added so far and the result list the loop reads. -/
structure ZipState where
  files : List (String × String)
  qrs : List GeneratedQR
deriving DecidableEq

/-- The `qrs.forEach((qr, index) => zip.file(...))` loop of `downloadZip`
(src/App.tsx lines 129-132): each iteration only appends one entry to the
zip; the result list is never written. -/
def zipAddLoop : List GeneratedQR → Nat → ZipState → ZipState
  | [], _, st => st
  | q :: rest, i, st =>
    zipAddLoop rest (i + 1)
      ⟨st.files ++ [(deriveFileName q.url i ++ ".png", base64Payload q.dataUrl)], st.qrs⟩

/-- Model of `downloadZip` (src/App.tsx lines 127-136): fill the zip from
the result list, then ask the external library for the blob
(`zip.generateAsync`); `genOk` tells whether that call resolves.  On
resolution the complete entry list is delivered to `saveAs`; on rejection
nothing is delivered (the rejection is the explicit export failure).  The
second component is the result list as left after the call. -/
def downloadZip (genOk : Bool) (qrs : List GeneratedQR) :
    Except Unit (List (String × String)) × List GeneratedQR :=
  let st := zipAddLoop qrs 0 ⟨[], qrs⟩
  (if genOk then Except.ok st.files else Except.error (), st.qrs)

theorem zipAddLoop_spec (qrs : List GeneratedQR) :
    ∀ (i : Nat) (st : ZipState),
      (zipAddLoop qrs i st).qrs = st.qrs
      ∧ (zipAddLoop qrs i st).files.length = st.files.length + qrs.length := by
  induction qrs with
  | nil => intro i st; exact ⟨rfl, rfl⟩
  | cons q rest ih =>
    intro i st
    have h := ih (i + 1)
      ⟨st.files ++ [(deriveFileName q.url i ++ ".png", base64Payload q.dataUrl)], st.qrs⟩
    refine ⟨h.1, ?_⟩
    have h2 := h.2
    simp only [List.length_append, List.length_singleton] at h2
    simp only [zipAddLoop, List.length_cons]
    omega

/-- C3: the derived archive file name keeps exactly the characters in the
ranges a-z, A-Z, 0-9 of the source text and replaces every other character
with an underscore, truncated to the first 50 characters; the fallback
qrcode_(index+1) is used exactly when the source text is empty; in
particular "https://a.com/b?c=1" derives "https___a_com_b_c_1" and an empty
source for the 3rd item derives "qrcode_3". -/
theorem deriveFileName_spec (s : String) (i : Nat) (c : Char) :
    ((('a' ≤ c ∧ c ≤ 'z') ∨ ('A' ≤ c ∧ c ≤ 'Z') ∨ ('0' ≤ c ∧ c ≤ '9')) → sanitizeChar c = c)
    ∧ (¬ (('a' ≤ c ∧ c ≤ 'z') ∨ ('A' ≤ c ∧ c ≤ 'Z') ∨ ('0' ≤ c ∧ c ≤ '9')) →
        sanitizeChar c = '_')
    ∧ (s = "" → deriveFileName s i = "qrcode_" ++ toString (i + 1))
    ∧ (s ≠ "" → (deriveFileName s i).data = (s.data.take 50).map sanitizeChar
        ∧ (deriveFileName s i).length ≤ 50)
    ∧ deriveFileName "https://a.com/b?c=1" 0 = "https___a_com_b_c_1"
    ∧ deriveFileName "" 2 = "qrcode_3" := by
  refine ⟨fun h => if_pos h, fun h => if_neg h, ?_, ?_, by decide, by decide⟩
  · rintro rfl
    rfl
  · intro hne
    have hdata : s.data ≠ [] := fun h => hne (String.ext (h.trans rfl))
    have htne : String.mk ((s.data.map sanitizeChar).take 50) ≠ "" := by
      intro h
      have hnil : (s.data.map sanitizeChar).take 50 = [] := congrArg String.data h
      rcases List.take_eq_nil_iff.mp hnil with h50 | hmap
      · exact absurd h50 (by decide)
      · exact hdata (List.map_eq_nil_iff.mp hmap)
    constructor
    · simp only [deriveFileName, if_neg htne, List.map_take]
    · simp only [deriveFileName, if_neg htne, String.length]
      exact le_trans (List.length_take_le 50 _) (le_refl 50)

/-- Witness for `deriveFileName_spec`: the kept character, the replaced
character, the fallback on the empty source, and the character-wise shape of
a concrete sanitized name. -/
theorem deriveFileName_spec_witness :
    sanitizeChar 'a' = 'a'
    ∧ sanitizeChar '?' = '_'
    ∧ deriveFileName "" 0 = "qrcode_" ++ toString 1
    ∧ (deriveFileName "a?" 0).data = ("a?".data.take 50).map sanitizeChar :=
  ⟨(deriveFileName_spec "" 0 'a').1 (by decide),
   (deriveFileName_spec "" 0 '?').2.1 (by decide),
   (deriveFileName_spec "" 0 'a').2.2.1 rfl,
   ((deriveFileName_spec "a?" 0 'a').2.2.2.1 (by decide)).1⟩

/-- C7: the Archive Exporter leaves its input result list unchanged and is
atomic: when the external blob production resolves, the delivered archive
has exactly one entry per result; when it rejects, an export failure is the
outcome and no archive (in particular no partial one) is delivered. -/
theorem downloadZip_frame_atomic (genOk : Bool) (qrs : List GeneratedQR) :
    (downloadZip genOk qrs).2 = qrs
    ∧ (genOk = true → ∃ entries, (downloadZip genOk qrs).1 = Except.ok entries
        ∧ entries.length = qrs.length)
    ∧ (genOk = false → (downloadZip genOk qrs).1 = Except.error ()) := by
  have h := zipAddLoop_spec qrs 0 ⟨[], qrs⟩
  refine ⟨h.1, ?_, ?_⟩
  · rintro rfl
    exact ⟨(zipAddLoop qrs 0 ⟨[], qrs⟩).files, rfl, by simpa using h.2⟩
  · rintro rfl
    rfl

/-- Witness for `downloadZip_frame_atomic` at a concrete one-element result
list with the blob production resolving. -/
theorem downloadZip_frame_atomic_witness :
    (downloadZip true [⟨"id1", "u", "data,abc"⟩]).2 = [⟨"id1", "u", "data,abc"⟩]
    ∧ ∃ entries, (downloadZip true [⟨"id1", "u", "data,abc"⟩]).1 = Except.ok entries
        ∧ entries.length = [(⟨"id1", "u", "data,abc"⟩ : GeneratedQR)].length :=
  ⟨(downloadZip_frame_atomic true [⟨"id1", "u", "data,abc"⟩]).1,
   (downloadZip_frame_atomic true [⟨"id1", "u", "data,abc"⟩]).2.1 rfl⟩

theorem generateBulkLoop_map_id (enc : String → Option String) (rand : Nat → String) :
    ∀ (lines : List String) (k : Nat),
      (generateBulkLoop enc rand lines k).map GeneratedQR.id
        = (List.range (encodeOk enc lines).length).map (fun i => "qr-" ++ rand (k + i)) := by
  intro lines
  induction lines with
  | nil => intro k; rfl
  | cons u rest ih =>
    intro k
    cases h : enc u with
    | some d =>
      have hlen : (encodeOk enc (u :: rest)).length = (encodeOk enc rest).length + 1 := by
        simp [encodeOk, List.filter_cons, h]
      rw [hlen]
      simp only [generateBulkLoop, h, List.map_cons]
      rw [List.range_succ_eq_map, List.map_cons, List.map_map]
      have hfun : ((fun i => "qr-" ++ rand (k + i)) ∘ Nat.succ)
          = fun i => "qr-" ++ rand (k + 1 + i) := by
        funext i
        simp only [Function.comp]
        have harg : k + i.succ = k + 1 + i := by omega
        rw [harg]
      rw [hfun, ← ih (k + 1)]
      simp
    | none =>
      have hlen : (encodeOk enc (u :: rest)).length = (encodeOk enc rest).length := by
        simp [encodeOk, List.filter_cons, h]
      rw [hlen]
      simp only [generateBulkLoop, h]
      exact ih k

theorem qr_id_prepend_inj (a b : String) (h : "qr-" ++ a = "qr-" ++ b) : a = b := by
  have h2 := congrArg String.data h
  simp [String.data_append] at h2
  exact String.ext h2

/-- C8 counterexample: the ids are built from `Math.random()` draws, which
carry no uniqueness guarantee; with a draw stream that repeats the value
"0.123", a batch of two successfully encoded lines yields two results with
the same id. -/
theorem generateBulk_id_collision :
    ¬ List.Pairwise (fun a b : GeneratedQR => a.id ≠ b.id)
        (generateBulkLoop (fun u => some u) (fun _ => "0.123") ["a", "b"] 0) := by
  decide

/-- C8 amended: whenever the `Math.random()` draws made during a batch are
pairwise distinct, no two results of the batch share an id. -/
theorem generateBulk_unique_ids (enc : String → Option String) (rand : Nat → String)
    (lines : List String) (hinj : ∀ i j, rand i = rand j → i = j) :
    List.Pairwise (fun a b : GeneratedQR => a.id ≠ b.id)
      (generateBulkLoop enc rand lines 0) := by
  have hmap := generateBulkLoop_map_id enc rand lines 0
  have h1 : List.Pairwise (fun a b : String => a ≠ b)
      ((List.range (encodeOk enc lines).length).map (fun i => "qr-" ++ rand (0 + i))) := by
    rw [List.pairwise_map]
    refine (List.pairwise_lt_range _).imp ?_
    intro i j hij heq
    have := hinj (0 + i) (0 + j) (qr_id_prepend_inj _ _ heq)
    omega
  rw [← hmap] at h1
  exact List.pairwise_map.mp h1

/-- A draw stream whose values are pairwise distinct, used to instantiate
the amended uniqueness theorem. -/
def randDistinct (n : Nat) : String := String.mk (List.replicate n 'x')

/-- Witness for `generateBulk_unique_ids` at a concrete batch with a
pairwise-distinct draw stream. -/
theorem generateBulk_unique_ids_witness :
    List.Pairwise (fun a b : GeneratedQR => a.id ≠ b.id)
      (generateBulkLoop (fun u => some u) randDistinct ["a", "b"] 0) :=
  generateBulk_unique_ids (fun u => some u) randDistinct ["a", "b"]
    (fun i j h => by
      have hd := congrArg String.data h
      have h2 : (List.replicate i 'x').length = (List.replicate j 'x').length := by
        simpa [randDistinct] using congrArg List.length hd
      simpa using h2)

/-- The parsed URL object as far as the classifier inspects it: its
`protocol` field (scheme with trailing colon). -/
structure URLParts where
  protocol : String
deriving DecidableEq

/-- The scheme allow-list of `isSafeUrl` (src/App.tsx line 280). -/
def allowedProtocols : List String := ["https:", "http:", "mailto:", "tel:"]

/-- Model of `isSafeUrl` (src/App.tsx lines 277-284).  `parseURL` is the
external WHATWG `new URL` constructor, `none` modelling a thrown parse
error; the `catch` maps any parse failure to `false`. -/
def isSafeUrl (parseURL : String → Option URLParts) (url : String) : Bool :=
  match parseURL url with
  | some u => allowedProtocols.contains u.protocol
  | none => false

/-- Classification of a decoded text in the results view: rendered as a
clickable link or as plain text (src/App.tsx lines 336-349). -/
inductive Classification where
  | link
  | plainText
deriving DecidableEq

/-- The render decision of the results view: a decoded text is shown as a
link exactly when `isSafeUrl` accepts it. -/
def classifyResult (parseURL : String → Option URLParts) (text : String) : Classification :=
  if isSafeUrl parseURL text then Classification.link else Classification.plainText

/-- Characters allowed inside a URI scheme after the first letter. -/
def schemeChar (c : Char) : Bool :=
  c.isAlpha || c.isDigit || c = '+' || c = '-' || c = '.'

/-- Reads scheme characters until the first colon; fails when a non-scheme
character appears before any colon or the text ends without one. -/
def takeScheme : List Char → Option (List Char)
  | [] => none
  | c :: rest =>
    if c = ':' then some []
    else if schemeChar c then (takeScheme rest).map (fun l => c :: l)
    else none

/-- A minimal concrete model of WHATWG URL scheme parsing, used to
instantiate the parser parameter in witnesses: a URL parses when it starts
with a letter followed by scheme characters up to a colon, and its protocol
is the lower-cased scheme with the trailing colon. -/
def urlParseModel (s : String) : Option URLParts :=
  match s.data with
  | [] => none
  | c :: rest =>
    if c.isAlpha then
      (takeScheme rest).map (fun sc => ⟨String.mk ((c :: sc).map Char.toLower) ++ ":"⟩)
    else none

/-- C4: the Result Classifier marks a text as a link if and only if the text
parses as a URL and its protocol is in the allow-list https, http, mailto,
tel; any parse failure yields plain text rather than an error; in particular
a parser resolving "https://x.com" and "tel:+123" to those schemes makes
them links, "ftp://x.com" with scheme ftp is plain text, and "hello world"
failing to parse is plain text. -/
theorem isSafeUrl_spec (parseURL : String → Option URLParts) :
    (∀ url, isSafeUrl parseURL url = true ↔
        ∃ u, parseURL url = some u ∧ u.protocol ∈ allowedProtocols)
    ∧ (∀ url, parseURL url = none → classifyResult parseURL url = Classification.plainText)
    ∧ (∀ url, classifyResult parseURL url = Classification.link ↔
        isSafeUrl parseURL url = true)
    ∧ (parseURL "https://x.com" = some ⟨"https:"⟩ →
        classifyResult parseURL "https://x.com" = Classification.link)
    ∧ (parseURL "tel:+123" = some ⟨"tel:"⟩ →
        classifyResult parseURL "tel:+123" = Classification.link)
    ∧ (parseURL "ftp://x.com" = some ⟨"ftp:"⟩ →
        classifyResult parseURL "ftp://x.com" = Classification.plainText)
    ∧ (parseURL "hello world" = none →
        classifyResult parseURL "hello world" = Classification.plainText) := by
  refine ⟨?_, ?_, ?_, ?_, ?_, ?_, ?_⟩
  · intro url
    cases h : parseURL url with
    | some u => simp [isSafeUrl, h, List.elem_iff]
    | none => simp [isSafeUrl, h]
  · intro url h
    simp [classifyResult, isSafeUrl, h]
  · intro url
    cases h : isSafeUrl parseURL url with
    | true => simp [classifyResult, h]
    | false => simp [classifyResult, h]
  · intro h
    simp [classifyResult, isSafeUrl, h, allowedProtocols]
  · intro h
    simp [classifyResult, isSafeUrl, h, allowedProtocols]
  · intro h
    simp [classifyResult, isSafeUrl, h, allowedProtocols]
  · intro h
    simp [classifyResult, isSafeUrl, h]

/-- Witness for `isSafeUrl_spec`: the four example texts classified through
the concrete parser model. -/
theorem isSafeUrl_spec_witness :
    classifyResult urlParseModel "https://x.com" = Classification.link
    ∧ classifyResult urlParseModel "tel:+123" = Classification.link
    ∧ classifyResult urlParseModel "ftp://x.com" = Classification.plainText
    ∧ classifyResult urlParseModel "hello world" = Classification.plainText :=
  ⟨(isSafeUrl_spec urlParseModel).2.2.2.1 (by decide),
   (isSafeUrl_spec urlParseModel).2.2.2.2.1 (by decide),
   (isSafeUrl_spec urlParseModel).2.2.2.2.2.1 (by decide),
   (isSafeUrl_spec urlParseModel).2.2.2.2.2.2 (by decide)⟩

end QRSuite
